import Mathlib

/-!
Shallow embedding of the reCAPTCHA challenge-solving engine of the
Host2Play auto-renew scripts (`host2play_auto_renew.py`, the Playwright
driver, and `host2play_auto_renew_ci_selenium.py`, the Selenium driver).

The embedded parts are: the target-keyword resolver
(`get_target_num_from_text` / `get_target_num`), the two geometry mappers
(`dynamic_and_selection_solver`, `square_solver` with `get_occupied_cells`),
the tile-image paste (`paste_new_img_on_main_img`), the image-change check
of the dynamic loop, the per-iteration classify/accept decision, the
verification ("check solved") step of both drivers, and the nested retry
loops of `solve_recaptcha_with_yolo`.

Pixel coordinates and cell indices are natural numbers.  The fractional
grid boundaries 112.5 and 337.5 of the 4x4 mapper are embedded exactly by
comparing `2*x` with `225` resp. `675`.  Python's `list(set(xs))` is
embedded as `xs.dedup` and `sorted(list(set(xs)))` as
`(xs.dedup).insertionSort (le)`; the claims checked here never depend on
the (unspecified) iteration order of a Python set.  Fallible I/O (missing
screenshot file, a raising detector call) is embedded by an explicit
`DetectInput` alternative.
-/

namespace Host2Play

/-- One YOLO detection: class id and box corners `(x1,y1)-(x2,y2)` as the
source truncates them with `int(...)`. -/
structure Detection where
  cls : Nat
  x1 : Nat
  y1 : Nat
  x2 : Nat
  y2 : Nat
deriving DecidableEq, Repr

/-- Input of a solver call.  `missingImage` embeds `not os.path.exists("0.png")`,
`raised` embeds an exception thrown by `Image.open`/`model.predict`/later
processing; `ok dets` embeds a successful detector invocation. -/
inductive DetectInput where
  | missingImage
  | raised
  | ok (dets : List Detection)
deriving DecidableEq, Repr

/-! ## TargetResolver (`get_target_num_from_text`, lines 261-271) -/

/-- The fixed keyword table, in the source dict's insertion order. -/
def target_mappings : List (String × Nat) :=
  [("bicycle", 1), ("bus", 5), ("boat", 8), ("car", 2),
   ("hydrant", 10), ("motorcycle", 3), ("traffic", 9)]

/-- Python's `term in text_lower` substring test. -/
def strContains (hay needle : String) : Bool :=
  decide (needle.data <:+: hay.data)

/-- Python's `text.lower()`: lowercase every character. -/
def lowerStr (s : String) : String := ⟨s.data.map Char.toLower⟩

/-- The `for term, value in target_mappings.items()` loop: first matching
entry wins, `1000` when none matches. -/
def lookupTarget : List (String × Nat) → String → Nat
  | [], _ => 1000
  | (term, value) :: rest, textLower =>
      if strContains textLower term then value else lookupTarget rest textLower

/-- `get_target_num_from_text`: lowercase the text, then scan the table in
order. -/
def get_target_num_from_text (text : String) : Nat :=
  lookupTarget target_mappings (lowerStr text)

/-! ## GeometryMapper, 3x3 (`dynamic_and_selection_solver`, lines 274-307) -/

/-- The 3x3 cell of one detection: `xc = (x1+x2)/2`, `row = yc // 100`,
`col = xc // 100`, `answer = row*3 + col + 1`.  For naturals,
`floor((x1+x2)/2 / 100) = (x1+x2) / 200`. -/
def cellOf3x3 (d : Detection) : Nat :=
  ((d.y1 + d.y2) / 200) * 3 + ((d.x1 + d.x2) / 200) + 1

/-- `dynamic_and_selection_solver`: keep detections of the target class,
map each to its cell, return `list(set(answers))`; on a missing image or
any exception return `[]`. -/
def dynamic_and_selection_solver (inp : DetectInput) (target_num : Nat) : List Nat :=
  match inp with
  | .missingImage => []
  | .raised => []
  | .ok dets =>
      ((dets.filter (fun d => d.cls == target_num)).map cellOf3x3).dedup

/-! ## GeometryMapper, 4x4 (`square_solver` / `get_occupied_cells`) -/

/-- The 16 independent `if` tests of `square_solver` applied to one corner
sample point `(x, y)`.  The source compares with `112.5`, `225`, `337.5`
and `450`; for integer coordinates `x < 112.5` is `2*x < 225`,
`112.5 < x` is `225 < 2*x`, `x < 337.5` is `2*x < 675`, `337.5 < x` is
`675 < 2*x`. -/
def sampleCells (x y : Nat) : List Nat :=
  (if 2*x < 225 ∧ 2*y < 225 then [1] else []) ++
  (if 225 < 2*x ∧ x < 225 ∧ 2*y < 225 then [2] else []) ++
  (if 225 < x ∧ 2*x < 675 ∧ 2*y < 225 then [3] else []) ++
  (if 675 < 2*x ∧ x ≤ 450 ∧ 2*y < 225 then [4] else []) ++
  (if 2*x < 225 ∧ 225 < 2*y ∧ y < 225 then [5] else []) ++
  (if 225 < 2*x ∧ x < 225 ∧ 225 < 2*y ∧ y < 225 then [6] else []) ++
  (if 225 < x ∧ 2*x < 675 ∧ 225 < 2*y ∧ y < 225 then [7] else []) ++
  (if 675 < 2*x ∧ x ≤ 450 ∧ 225 < 2*y ∧ y < 225 then [8] else []) ++
  (if 2*x < 225 ∧ 225 < y ∧ 2*y < 675 then [9] else []) ++
  (if 225 < 2*x ∧ x < 225 ∧ 225 < y ∧ 2*y < 675 then [10] else []) ++
  (if 225 < x ∧ 2*x < 675 ∧ 225 < y ∧ 2*y < 675 then [11] else []) ++
  (if 675 < 2*x ∧ x ≤ 450 ∧ 225 < y ∧ 2*y < 675 then [12] else []) ++
  (if 2*x < 225 ∧ 675 < 2*y ∧ y ≤ 450 then [13] else []) ++
  (if 225 < 2*x ∧ x < 225 ∧ 675 < 2*y ∧ y ≤ 450 then [14] else []) ++
  (if 225 < x ∧ 2*x < 675 ∧ 675 < 2*y ∧ y ≤ 450 then [15] else []) ++
  (if 675 < 2*x ∧ x ≤ 450 ∧ 675 < 2*y ∧ y ≤ 450 then [16] else [])

/-- The row/column grid index of a sample coordinate under the 4x4
boundaries (112.5, 225, 337.5): band 0 for `x < 112.5`, band 1 for
`112.5 < x < 225`, band 2 for `225 < x < 337.5`, band 3 for
`337.5 < x`.  The boundary value 225 itself (the only integer boundary)
falls through to band 3 here, but every use below excludes it. -/
def bandIdx (x : Nat) : Nat :=
  if 2*x < 225 then 0 else if x < 225 then 1 else if 2*x < 675 then 2 else 3

/-- Intermediate form of `sampleCells` once the column band `c` of the
x-coordinate is fixed: the four row tests remain. -/
def colCells (c y : Nat) : List Nat :=
  (if 2*y < 225 then [c + 1] else []) ++
  (if 225 < 2*y ∧ y < 225 then [c + 5] else []) ++
  (if 225 < y ∧ 2*y < 675 then [c + 9] else []) ++
  (if 675 < 2*y ∧ y ≤ 450 then [c + 13] else [])

/-- The `four_cells` list of one detection: the source samples the corners
in the order `(x1,y1), (x2,y1), (x1,y2), (x2,y2)` (`x2,y2 = x4,y1` and
`x3,y3 = x1,y4` in its variable names). -/
def fourCells (d : Detection) : List Nat :=
  sampleCells d.x1 d.y1 ++ sampleCells d.x2 d.y1 ++
  sampleCells d.x1 d.y2 ++ sampleCells d.x2 d.y2

/-- `get_occupied_cells`: rows `(v-1) // 4` and columns `(v-1) % 4` of the
sampled cells, then every cell `4*i + j + 1` of the inclusive min/max
rectangle, sorted.  On an empty input the source raises (`zip(*[])`
unpacking), which `square_solver`'s `except` turns into an overall `[]`;
the `[]` branch here is unreachable under `square_solver`'s guard. -/
def get_occupied_cells (vertices : List Nat) : List Nat :=
  match vertices with
  | [] => []
  | v :: vs =>
      let rows := (v :: vs).map (fun u => (u - 1) / 4)
      let cols := (v :: vs).map (fun u => (u - 1) % 4)
      let rmin := rows.foldl min ((v - 1) / 4)
      let rmax := rows.foldl max ((v - 1) / 4)
      let cmin := cols.foldl min ((v - 1) % 4)
      let cmax := cols.foldl max ((v - 1) % 4)
      ((List.range' rmin (rmax + 1 - rmin)).flatMap
        (fun i => (List.range' cmin (cmax + 1 - cmin)).map
          (fun j => 4*i + j + 1)))

/-- `square_solver`: keep detections of the target class; for each, sample
the four corners and fill the occupied rectangle; return
`sorted(list(set(answers)))`.  A matched detection whose `four_cells` is
empty makes `get_occupied_cells` raise, so the whole call returns `[]`
through the `except` handler; a missing image or raising detector also
gives `[]`. -/
def square_solver (inp : DetectInput) (target_num : Nat) : List Nat :=
  match inp with
  | .missingImage => []
  | .raised => []
  | .ok dets =>
      let matched := dets.filter (fun d => d.cls == target_num)
      if matched.any (fun d => (fourCells d).isEmpty) then
        []
      else
        ((matched.flatMap (fun d => get_occupied_cells (fourCells d))).dedup).insertionSort
          (· ≤ ·)

/-! ## ImageChangeDetector (`solve_recaptcha_with_yolo`, lines 756-786) -/

/-- The `index_common` list of the dynamic loop: the answered positions
(1-based) that are in bounds of both url lists and whose tile identifier
is unchanged.  The out-of-range default of `getD` is never read because of
the length guards. -/
def index_common (answers : List Nat) (newUrls beforeUrls : List String) : List Nat :=
  answers.filter (fun a =>
    decide (a ≤ newUrls.length) && decide (a ≤ beforeUrls.length) &&
    (newUrls.getD (a - 1) "" == beforeUrls.getD (a - 1) ""))

/-- `if len(index_common) < 1: is_new = True` — the check reports new
content exactly when no answered position still matches. -/
def imagesChanged (answers : List Nat) (newUrls beforeUrls : List String) : Bool :=
  (index_common answers newUrls beforeUrls).length < 1

/-! ## Tile paste (`paste_new_img_on_main_img`, lines 387-395) -/

/-- A pixel as an (R,G,B) channel triple. -/
abbrev Pix : Type := Nat × Nat × Nat

/-- An image as a function from (row, column) to pixel. -/
abbrev Img : Type := Nat → Nat → Pix

/-- The numpy slice assignment
`paste[start_row:end_row, start_col:end_col] = new` after
`row, col = (loc-1)//3, (loc-1)%3` and `start = row*100 / col*100`. -/
def paste_array (main newImg : Img) (loc : Nat) : Img :=
  fun r c =>
    let row := (loc - 1) / 3
    let col := (loc - 1) % 3
    if row * 100 ≤ r ∧ r < (row + 1) * 100 ∧ col * 100 ≤ c ∧ c < (col + 1) * 100 then
      newImg (r - row * 100) (c - col * 100)
    else
      main r c

/-- `cv2.cvtColor(paste, cv2.COLOR_RGB2BGR)`: swap the first and third
channel of every pixel. -/
def cvtColor_RGB2BGR (img : Img) : Img :=
  fun r c => ((img r c).2.2, (img r c).2.1, (img r c).1)

/-- `cv2.imwrite('0.png', ...)` interprets the array as BGR and stores
conventional RGB in the PNG, i.e. it swaps the channels back; this models
the cv2 contract, so the stored image content is the composition of the
two swaps. -/
def imwrite_png_content (bgr : Img) : Img :=
  fun r c => ((bgr r c).2.2, (bgr r c).2.1, (bgr r c).1)

/-- `paste_new_img_on_main_img` end to end: slice-assign, convert RGB→BGR,
write `0.png`; the value is the pixel content of the written file. -/
def paste_new_img_on_main_img (main newImg : Img) (loc : Nat) : Img :=
  imwrite_png_content (cvtColor_RGB2BGR (paste_array main newImg loc))

/-! ## Classify/accept decision (lines 698-716 and the Selenium
counterpart, lines 367-386) -/

/-- The three challenge variants. -/
inductive Variant where
  | selection
  | dynamic
  | squares
deriving DecidableEq, Repr

/-- Outcome of the per-iteration answer check inside the reload loop. -/
inductive StepDecision where
  | accept
  | reload
deriving DecidableEq, Repr

/-- The answer check: `if len(answers) >= 1 and len(answers) < 16: break`
for squares, `if len(answers) >= 1: break` for selection/dynamic;
otherwise click the reload button and continue the loop. -/
def classifyDecision (v : Variant) (answers : List Nat) : StepDecision :=
  match v with
  | .squares =>
      if 1 ≤ answers.length ∧ answers.length < 16 then .accept else .reload
  | _ =>
      if 1 ≤ answers.length then .accept else .reload

/-! ## Verification check, Selenium driver (`solve_recaptcha_ia`,
lines 450-483) -/

/-- The observable outcome of the post-verify "check solved" block of
`solve_recaptcha_ia`. -/
inductive IACheckOutcome where
  | checkboxChecked   -- the anchor iframe's checkbox reports aria-checked "true"
  | challengeHidden   -- the challenge iframe is found and `is_displayed()` is false
  | challengeMissing  -- `find_element` for the challenge iframe raised (frame gone)
  | stillDisplayed    -- the challenge iframe is still displayed; re-attach succeeded
  | checkError        -- an exception while checking (e.g. a re-attach timeout)
deriving DecidableEq, Repr

/-- The check-solved block: `some true` = `return True` immediately,
`none` = stay in the attempt loop.  The `checkError` case is the source's
outer `except` handler, commented `# maybe solved`, which returns `True`. -/
def check_solved_ia : IACheckOutcome → Option Bool
  | .checkboxChecked => some true
  | .challengeHidden => some true
  | .challengeMissing => some true
  | .stillDisplayed => none
  | .checkError => some true

/-- The two positive verification signals of the design: the
acknowledgement checkbox reports a confirmed state, or the challenge
panel/frame has disappeared (hidden or missing). -/
def iaPositiveSignal : IACheckOutcome → Bool
  | .checkboxChecked => true
  | .challengeHidden => true
  | .challengeMissing => true
  | _ => false

/-! ## Verification check, Playwright driver (`solve_recaptcha_with_yolo`,
lines 849-890) -/

/-- The observable outcome of the post-verify check of
`solve_recaptcha_with_yolo`. -/
inductive YoloCheckOutcome where
  | checkboxChecked  -- the anchor frame's `span[aria-checked="true"]` is present
  | challengeGone    -- no challenge (bframe) frame remains on the page
  | stillPresent     -- the challenge frame is still present: not solved
  | raised           -- an exception during the check, caught by the attempt-level except
deriving DecidableEq, Repr

/-- The check after clicking verify: `some true` = `return True`; `none` =
fall through to the next outer attempt (the `raised` case is caught by the
attempt's `except`, which logs and continues to the next attempt or
returns `False` when the budget is spent — never success). -/
def check_solved_yolo : YoloCheckOutcome → Option Bool
  | .checkboxChecked => some true
  | .challengeGone => some true
  | .stillPresent => none
  | .raised => none

/-- The positive verification signals for the Playwright check. -/
def yoloPositiveSignal : YoloCheckOutcome → Bool
  | .checkboxChecked => true
  | .challengeGone => true
  | _ => false

/-! ## The nested retry loops of `solve_recaptcha_with_yolo`
(lines 586-890) -/

/-- `max_reload = 15` in the source. -/
def max_reload : Nat := 15

/-- `max_attempts = 10` (the default parameter value). -/
def max_attempts_default : Nat := 10

/-- `max_dynamic_rounds = 15` in the source. -/
def max_dynamic_rounds : Nat := 15

/-- The poll bound `retry_detect < 20` of the dynamic loop. -/
def poll_budget : Nat := 20

/-- What one iteration of the reload loop observes. -/
inductive ReloadOutcome where
  | solvedEarly        -- checkbox auto-checked or the challenge frame gone: return True
  | uiFailure          -- target text / images / screenshot failed, or target 1000: reload and continue
  | classified (v : Variant) (answers : List Nat)  -- variant recognised, answers computed
  | raised             -- an exception, propagating to the attempt-level except

/-- Result of the reload loop (first component) with the final
`reload_count` (second component). -/
inductive ReloadResult where
  | success
  | accepted (v : Variant) (answers : List Nat)
  | exhausted
  | raisedOut
deriving DecidableEq, Repr

/-- The `while reload_count < max_reload` loop: `fuel` is the remaining
budget, `i` the number of iterations already run (so `reload_count = i + 1`
inside the body).  Acceptance (`break`) and early success return
immediately; every other outcome consumes one unit and continues. -/
def reloadLoopAux (env : Nat → ReloadOutcome) (i fuel : Nat) : ReloadResult × Nat :=
  match fuel with
  | 0 => (.exhausted, i)
  | fuel + 1 =>
      match env i with
      | .solvedEarly => (.success, i + 1)
      | .uiFailure => reloadLoopAux env (i + 1) fuel
      | .raised => (.raisedOut, i + 1)
      | .classified v answers =>
          match classifyDecision v answers with
          | .accept => (.accepted v answers, i + 1)
          | .reload => reloadLoopAux env (i + 1) fuel

/-- One attempt's dynamic-loop environment: tile-identifier lists per
(round, poll) and the detector input of each round's re-detection. -/
structure DynEnv where
  urlsAt : Nat → Nat → List String
  solveAt : Nat → DetectInput

/-- The inner poll loop `while retry_detect < 20 and not is_new`: returns
whether new images were observed, the url list that triggered it, and the
number of polls executed (starting from `t`). -/
def pollLoopAux (urlsAt : Nat → List String) (beforeUrls : List String)
    (answers : List Nat) (t fuel : Nat) : Bool × List String × Nat :=
  match fuel with
  | 0 => (false, beforeUrls, t)
  | fuel + 1 =>
      let newUrls := urlsAt t
      if imagesChanged answers newUrls beforeUrls then
        (true, newUrls, t + 1)
      else
        pollLoopAux urlsAt beforeUrls answers (t + 1) fuel

/-- The `while dynamic_rounds < max_dynamic_rounds` loop; returns the
number of rounds executed (starting from `round`).  A round polls for new
images, re-runs the 3x3 solver, and continues only when it finds at least
one new answer; otherwise the loop ends and control proceeds to verify. -/
def dynamicLoopAux (env : DynEnv) (target : Nat) (answers : List Nat)
    (imgUrls : List String) (round fuel : Nat) : Nat :=
  match fuel with
  | 0 => round
  | fuel + 1 =>
      let polled := pollLoopAux (env.urlsAt round) imgUrls answers 0 poll_budget
      if !polled.1 then round + 1
      else
        let answers2 := dynamic_and_selection_solver (env.solveAt round) target
        if 1 ≤ answers2.length then
          dynamicLoopAux env target answers2 polled.2.1 (round + 1) fuel
        else round + 1

/-- The environment of one whole solve call: per-attempt reload outcomes
and per-attempt verification outcome.  The dynamic phase (embedded as
`dynamicLoopAux`) only changes which cells get clicked; whichever way it
exits, control proceeds to the verify step, whose outcome the environment
provides. -/
structure SolveEnv where
  reload : Nat → Nat → ReloadOutcome
  verify : Nat → YoloCheckOutcome

/-- The outer `while outer_attempt < max_attempts` loop; returns the final
boolean and the number of attempts executed (starting from `a`).  An
accepted answer set reached exactly on the last reload iteration is
discarded by the source's `if reload_count >= max_reload: continue`;
reload exhaustion, a raised attempt and a failed verification all continue
with the next attempt; spent outer budget returns `False`. -/
def outerLoopAux (env : SolveEnv) (a fuel : Nat) : Bool × Nat :=
  match fuel with
  | 0 => (false, a)
  | fuel + 1 =>
      let r := reloadLoopAux (env.reload a) 0 max_reload
      match r.1 with
      | .success => (true, a + 1)
      | .raisedOut => outerLoopAux env (a + 1) fuel
      | .exhausted => outerLoopAux env (a + 1) fuel
      | .accepted _ _ =>
          if max_reload ≤ r.2 then outerLoopAux env (a + 1) fuel
          else
            match check_solved_yolo (env.verify a) with
            | some b => (b, a + 1)
            | none => outerLoopAux env (a + 1) fuel

/-- The whole solve loop of `solve_recaptcha_with_yolo` from the first
outer attempt. -/
def solveLoop (env : SolveEnv) (maxAttempts : Nat) : Bool × Nat :=
  outerLoopAux env 0 maxAttempts

/-- The environment in which the detector returns empty detections on
every reload cycle of every attempt (screenshot and target resolution
succeed), and verification is never reached. -/
def emptyDetectorEnv : SolveEnv where
  reload := fun _ _ => .classified .selection (dynamic_and_selection_solver (.ok []) 2)
  verify := fun _ => .stillPresent

/-! ## Helper lemmas -/

/-- Scanning the table, the first matching entry picked when no other
entry matches. -/
theorem lookupTarget_only_match {table : List (String × Nat)} {tl k : String} {v : Nat}
    (hmem : (k, v) ∈ table) (hk : strContains tl k = true)
    (hothers : ∀ p ∈ table, p ≠ (k, v) → strContains tl p.1 = false) :
    lookupTarget table tl = v := by
  induction table with
  | nil => cases hmem
  | cons hd rest ih =>
      obtain ⟨k', v'⟩ := hd
      by_cases hhd : (k', v') = (k, v)
      · obtain ⟨rfl, rfl⟩ := Prod.mk.injEq .. ▸ hhd
        simp [lookupTarget, hk]
      · have hnot : strContains tl k' = false := hothers (k', v') (by simp) hhd
        have hmem' : (k, v) ∈ rest := by
          rcases List.mem_cons.mp hmem with h | h
          · exact absurd h.symm hhd
          · exact h
        simp only [lookupTarget, hnot, Bool.false_eq_true, if_false]
        exact ih hmem' (fun p hp => hothers p (List.mem_cons_of_mem _ hp))

/-- Scanning the table when no entry matches yields the sentinel. -/
theorem lookupTarget_no_match {table : List (String × Nat)} {tl : String}
    (h : ∀ p ∈ table, strContains tl p.1 = false) :
    lookupTarget table tl = 1000 := by
  induction table with
  | nil => rfl
  | cons hd rest ih =>
      obtain ⟨k', v'⟩ := hd
      have hnot : strContains tl k' = false := h (k', v') (by simp)
      simp only [lookupTarget, hnot, Bool.false_eq_true, if_false]
      exact ih (fun p hp => h p (List.mem_cons_of_mem _ hp))

/-- The table scan returns the value of the first entry whose keyword
occurs in the text, `1000` when there is none. -/
theorem lookupTarget_eq_find? (table : List (String × Nat)) (tl : String) :
    lookupTarget table tl =
      ((table.find? (fun p => strContains tl p.1)).map Prod.snd).getD 1000 := by
  induction table with
  | nil => rfl
  | cons hd rest ih =>
      obtain ⟨k', v'⟩ := hd
      by_cases hk : strContains tl k' = true
      · simp [lookupTarget, List.find?, hk]
      · simp only [lookupTarget, List.find?, Bool.not_eq_true] at *
        simp [hk, ih]

/-! ## C1 -/

/-- C1, counterexample: in the Selenium driver's check-solved block, an
exception while checking the verification result (outcome `checkError`,
the source's `# maybe solved` handler) returns success even though
neither positive verification signal was observed. -/
theorem C1_success_on_check_error :
    check_solved_ia .checkError = some true ∧
    iaPositiveSignal .checkError = false := by
  exact ⟨rfl, rfl⟩

/-- C1 (amended): the Playwright solver returns success only on one of the
two positive verification signals, and otherwise (including a raised check)
stays in the attempt loop; the Selenium solver returns success on a
positive signal or on an error while checking the verification result (the
`# maybe solved` handler), and stays in the loop otherwise. -/
theorem C1_verify_success_signals :
    (∀ o, check_solved_yolo o = some true → yoloPositiveSignal o = true) ∧
    (∀ o, check_solved_ia o = some true →
        (iaPositiveSignal o = true ∨ o = .checkError)) ∧
    check_solved_ia .checkError = some true ∧
    (∀ o, check_solved_yolo o ≠ some true → check_solved_yolo o = none) ∧
    (∀ o, check_solved_ia o ≠ some true → check_solved_ia o = none) := by
  refine ⟨?_, ?_, rfl, ?_, ?_⟩ <;> intro o <;> cases o <;>
    simp [check_solved_yolo, check_solved_ia, iaPositiveSignal, yoloPositiveSignal]

/-- C1 witness: the theorem applied to the checked-checkbox outcome. -/
theorem C1_verify_success_signals_witness :
    yoloPositiveSignal .checkboxChecked = true :=
  C1_verify_success_signals.1 .checkboxChecked rfl

/-! ## C3 -/

/-- C3, counterexample: answered positions 1 and 2 are both within bounds,
the identifier at position 2 differs before/after, yet the check reports
"no change" (because position 1 still matches) — contradicting "reports
change as soon as the identifier at even one answered position differs". -/
theorem C3_one_differing_not_change :
    imagesChanged [1, 2] ["a", "c"] ["a", "b"] = false ∧
    ¬ (["a", "c"].getD (2 - 1) "" = ["a", "b"].getD (2 - 1) "") ∧
    2 ≤ (["a", "c"] : List String).length ∧
    2 ≤ (["a", "b"] : List String).length := by
  refine ⟨rfl, by decide, by decide, by decide⟩

/-- C3 (amended): the image-change check reports "change" exactly when the
identifier at every answered in-bounds position differs (equivalently, no
answered position still matches); in particular with all identifiers
identical (and at least one answered position in bounds) it reports "no
change", and a single differing position triggers "change" only when no
other answered position still matches. -/
theorem C3_change_iff_no_position_matches :
    ∀ (answers : List Nat) (newUrls beforeUrls : List String),
      (imagesChanged answers newUrls beforeUrls = true ↔
        ∀ a ∈ answers, a ≤ newUrls.length → a ≤ beforeUrls.length →
          ¬ (newUrls.getD (a - 1) "" = beforeUrls.getD (a - 1) "")) ∧
      ((∀ a ∈ answers, newUrls.getD (a - 1) "" = beforeUrls.getD (a - 1) "") →
        (∃ a ∈ answers, a ≤ newUrls.length ∧ a ≤ beforeUrls.length) →
        imagesChanged answers newUrls beforeUrls = false) := by
  intro answers newUrls beforeUrls
  constructor
  · simp only [imagesChanged, index_common, decide_eq_true_eq, Nat.lt_one_iff,
      List.length_eq_zero, List.filter_eq_nil_iff, Bool.and_eq_true, beq_iff_eq,
      not_and]
    exact ⟨fun h a ha h1 h2 => h a ha ⟨h1, h2⟩, fun h a ha hh => h a ha hh.1 hh.2⟩
  · intro hall ⟨a, ha, h1, h2⟩
    cases hchanged : imagesChanged answers newUrls beforeUrls with
    | false => rfl
    | true =>
        exfalso
        have := by
          simpa only [imagesChanged, index_common, decide_eq_true_eq, Nat.lt_one_iff,
            List.length_eq_zero, List.filter_eq_nil_iff, Bool.and_eq_true, beq_iff_eq,
            not_and] using hchanged
        exact this a ha ⟨h1, h2⟩ (hall a ha)

/-- C3 witness: identical identifiers at the single in-bounds answered
position make the amended check report "no change". -/
theorem C3_change_iff_no_position_matches_witness :
    imagesChanged [1] ["a"] ["a"] = false :=
  (C3_change_iff_no_position_matches [1] ["a"] ["a"]).2 (by decide) ⟨1, by decide, by decide⟩

/-! ## C5 -/

/-- C5: in the 3x3 mapper, each detection of the target class contributes
exactly the cell `floor(yc/100)*3 + floor(xc/100) + 1` of its box center
`(xc, yc)`; the Answer set consists exactly of those cells; a detection
centered at (50,50) gives cell 1, one centered at (250,250) gives cell 9,
and two detections on the same cell collapse to a single answer. -/
theorem C5_center_cell_mapping :
    (∀ d : Detection, cellOf3x3 d =
        ⌊((d.y1 : ℚ) + d.y2) / 2 / 100⌋₊ * 3 + ⌊((d.x1 : ℚ) + d.x2) / 2 / 100⌋₊ + 1) ∧
    (∀ (dets : List Detection) (t a : Nat),
        a ∈ dynamic_and_selection_solver (.ok dets) t ↔
          ∃ d, d ∈ dets ∧ d.cls = t ∧ a = cellOf3x3 d) ∧
    dynamic_and_selection_solver (.ok [⟨1, 0, 0, 100, 100⟩]) 1 = [1] ∧
    dynamic_and_selection_solver (.ok [⟨1, 200, 200, 300, 300⟩]) 1 = [9] ∧
    (∀ (d d' : Detection) (t : Nat), d.cls = t → d'.cls = t →
        cellOf3x3 d = cellOf3x3 d' →
        (dynamic_and_selection_solver (.ok [d, d']) t).length = 1) := by
  have hfloor : ∀ m n : Nat, ⌊((m : ℚ) + n) / 2 / 100⌋₊ = (m + n) / 200 := by
    intro m n
    rw [div_div]
    norm_num
    rw [show ((m : ℚ) + n) = ((m + n : ℕ) : ℚ) by push_cast; ring,
      show (200 : ℚ) = ((200 : ℕ) : ℚ) by norm_num,
      Nat.floor_div_nat, Nat.floor_natCast]
  refine ⟨?_, ?_, by decide, by decide, ?_⟩
  · intro d
    rw [hfloor d.y1 d.y2, hfloor d.x1 d.x2]
    rfl
  · intro dets t a
    simp only [dynamic_and_selection_solver, List.mem_dedup, List.mem_map,
      List.mem_filter, beq_iff_eq]
    constructor
    · rintro ⟨d, ⟨hd, hcls⟩, rfl⟩
      exact ⟨d, hd, hcls, rfl⟩
    · rintro ⟨d, hd, hcls, rfl⟩
      exact ⟨d, ⟨hd, hcls⟩, rfl⟩
  · intro d d' t hd hd' heq
    simp only [dynamic_and_selection_solver, List.filter, hd, hd', beq_self_eq_true,
      List.map]
    rw [heq, List.dedup_cons_of_mem (List.mem_singleton.mpr rfl)]
    rfl

/-- C5 witness: two detections of class 1 whose boxes share the center
cell produce an Answer set of size 1. -/
theorem C5_center_cell_mapping_witness :
    (dynamic_and_selection_solver (.ok [⟨1, 0, 0, 100, 100⟩, ⟨1, 10, 10, 90, 90⟩]) 1).length
      = 1 :=
  C5_center_cell_mapping.2.2.2.2 ⟨1, 0, 0, 100, 100⟩ ⟨1, 10, 10, 90, 90⟩ 1 rfl rfl (by decide)

/-! ## C6 -/

/-- C6: the target resolver matches the lowercased text against the fixed
keyword table in table order (bicycle→1, bus→5, boat→8, car→2,
hydrant→10, motorcycle→3, traffic→9), the first matching entry wins, a
text containing only one table keyword resolves to that keyword's id, and
a text containing none resolves to the sentinel 1000. -/
theorem C6_target_resolver_table_order :
    target_mappings = [("bicycle", 1), ("bus", 5), ("boat", 8), ("car", 2),
      ("hydrant", 10), ("motorcycle", 3), ("traffic", 9)] ∧
    (∀ text : String, get_target_num_from_text text =
      ((target_mappings.find? (fun p => strContains (lowerStr text) p.1)).map
        Prod.snd).getD 1000) ∧
    (∀ (text k : String) (v : Nat), (k, v) ∈ target_mappings →
      strContains (lowerStr text) k = true →
      (∀ p ∈ target_mappings, p ≠ (k, v) → strContains (lowerStr text) p.1 = false) →
      get_target_num_from_text text = v) ∧
    (∀ text : String, (∀ p ∈ target_mappings, strContains (lowerStr text) p.1 = false) →
      get_target_num_from_text text = 1000) := by
  refine ⟨rfl, ?_, ?_, ?_⟩
  · intro text
    exact lookupTarget_eq_find? target_mappings (lowerStr text)
  · intro text k v hmem hk hothers
    exact lookupTarget_only_match hmem hk hothers
  · intro text h
    exact lookupTarget_no_match h

/-- C6 witness: the instruction text "Select all images with a bicycle"
contains exactly the keyword "bicycle" and resolves to 1; a keyword-free
text resolves to 1000. -/
theorem C6_target_resolver_table_order_witness :
    get_target_num_from_text "Select all images with a bicycle" = 1 ∧
    get_target_num_from_text "select all crosswalks" = 1000 :=
  ⟨C6_target_resolver_table_order.2.2.1 "Select all images with a bicycle" "bicycle" 1
      (by decide) (by decide) (by decide),
   C6_target_resolver_table_order.2.2.2 "select all crosswalks" (by decide)⟩

/-! ## C7 -/

/-- C7: inside the reload loop, a computed Answer set is accepted (the
loop breaks with it) iff it meets the variant's minimum-answer condition —
at least 1 cell for selection/dynamic, at least 1 and fewer than 16 for
squares; otherwise the iteration requests a reload and the loop continues,
consuming one unit of the reload budget. -/
theorem C7_accept_iff_minimum_answers :
    (∀ (v : Variant) (answers : List Nat),
        classifyDecision v answers = .accept ↔
          (1 ≤ answers.length ∧ (v = .squares → answers.length < 16))) ∧
    (∀ (env : Nat → ReloadOutcome) (i fuel : Nat) (v : Variant) (answers : List Nat),
        env i = .classified v answers →
          ((1 ≤ answers.length ∧ (v = .squares → answers.length < 16)) →
              reloadLoopAux env i (fuel + 1) = (.accepted v answers, i + 1)) ∧
          (¬ (1 ≤ answers.length ∧ (v = .squares → answers.length < 16)) →
              reloadLoopAux env i (fuel + 1) = reloadLoopAux env (i + 1) fuel)) := by
  have hdec : ∀ (v : Variant) (answers : List Nat),
      classifyDecision v answers = .accept ↔
        (1 ≤ answers.length ∧ (v = .squares → answers.length < 16)) := by
    intro v answers
    cases v <;> simp only [classifyDecision] <;> split_ifs with h <;> simp_all
  refine ⟨hdec, ?_⟩
  intro env i fuel v answers henv
  constructor
  · intro hcond
    have : classifyDecision v answers = .accept := (hdec v answers).mpr hcond
    simp [reloadLoopAux, henv, this]
  · intro hcond
    have hne : classifyDecision v answers ≠ .accept := fun h => hcond ((hdec v answers).mp h)
    have : classifyDecision v answers = .reload := by
      cases h : classifyDecision v answers
      · exact absurd h hne
      · rfl
    simp [reloadLoopAux, henv, this]

/-- C7 witness: a selection answer set of one cell is accepted by the
reload loop at its first iteration. -/
theorem C7_accept_iff_minimum_answers_witness :
    reloadLoopAux (fun _ => .classified .selection [3]) 0 1 =
      (.accepted .selection [3], 1) :=
  (C7_accept_iff_minimum_answers.2 (fun _ => .classified .selection [3]) 0 0 .selection [3]
    rfl).1 (by decide)

/-! ## C8 -/

/-- C8: the geometry mappers return an empty Answer set (instead of
propagating an error) when the screenshot file is absent, when the
detector invocation raises, and — for the 4x4 mapper — when a later
processing step raises because a matched detection sampled no corner cell
(the `zip(*[])` unpacking inside `get_occupied_cells`). -/
theorem C8_solvers_return_empty_on_error :
    (∀ t, dynamic_and_selection_solver .missingImage t = [] ∧
          dynamic_and_selection_solver .raised t = []) ∧
    (∀ t, square_solver .missingImage t = [] ∧ square_solver .raised t = []) ∧
    (∀ (dets : List Detection) (t : Nat),
        (∃ d ∈ dets, d.cls = t ∧ fourCells d = []) →
        square_solver (.ok dets) t = []) := by
  refine ⟨fun t => ⟨rfl, rfl⟩, fun t => ⟨rfl, rfl⟩, ?_⟩
  rintro dets t ⟨d, hd, hcls, hempty⟩
  have hany : (dets.filter (fun d => d.cls == t)).any
      (fun d => (fourCells d).isEmpty) = true := by
    rw [List.any_eq_true]
    exact ⟨d, List.mem_filter.mpr ⟨hd, by simp [hcls]⟩, by simp [hempty]⟩
  simp [square_solver, hany]

/-- C8 witness: a degenerate detection whose corners all sit on the 225
boundary samples no cell, and the 4x4 solver returns the empty set. -/
theorem C8_solvers_return_empty_on_error_witness :
    square_solver (.ok [⟨2, 225, 225, 225, 225⟩]) 2 = [] :=
  C8_solvers_return_empty_on_error.2.2 [⟨2, 225, 225, 225, 225⟩] 2
    ⟨⟨2, 225, 225, 225, 225⟩, by decide, rfl, by decide⟩

/-! ## C10 -/

/-- C10: pasting a tile at location `loc ∈ [1,9]` writes an image whose
100x100 block at rows `[(loc-1)/3*100, ((loc-1)/3+1)*100)` and columns
`[(loc-1)%3*100, ((loc-1)%3+1)*100)` equals the replacement tile and whose
every other pixel equals the original main image (the RGB→BGR conversion
composed with the BGR-interpreting PNG write leaves pixel content
unchanged). -/
theorem C10_paste_block_effect :
    ∀ (main newImg : Img) (loc r c : Nat), 1 ≤ loc → loc ≤ 9 → r < 300 → c < 300 →
      ((((loc - 1) / 3) * 100 ≤ r ∧ r < ((loc - 1) / 3 + 1) * 100 ∧
        ((loc - 1) % 3) * 100 ≤ c ∧ c < ((loc - 1) % 3 + 1) * 100) →
          paste_new_img_on_main_img main newImg loc r c =
            newImg (r - ((loc - 1) / 3) * 100) (c - ((loc - 1) % 3) * 100)) ∧
      (¬ (((loc - 1) / 3) * 100 ≤ r ∧ r < ((loc - 1) / 3 + 1) * 100 ∧
        ((loc - 1) % 3) * 100 ≤ c ∧ c < ((loc - 1) % 3 + 1) * 100) →
          paste_new_img_on_main_img main newImg loc r c = main r c) := by
  intro main newImg loc r c _ _ _ _
  have hpoint : paste_new_img_on_main_img main newImg loc r c =
      paste_array main newImg loc r c := rfl
  constructor
  · intro hin
    rw [hpoint]
    simp only [paste_array]
    rw [if_pos hin]
  · intro hout
    rw [hpoint]
    simp only [paste_array]
    rw [if_neg hout]

/-- C10 witness: pasting at location 5 replaces the center pixel block and
keeps a pixel outside the block. -/
theorem C10_paste_block_effect_witness :
    paste_new_img_on_main_img (fun _ _ => (1, 2, 3)) (fun _ _ => (4, 5, 6)) 5 150 150 =
      (4, 5, 6) ∧
    paste_new_img_on_main_img (fun _ _ => (1, 2, 3)) (fun _ _ => (4, 5, 6)) 5 0 0 =
      (1, 2, 3) :=
  ⟨(C10_paste_block_effect (fun _ _ => (1, 2, 3)) (fun _ _ => (4, 5, 6)) 5 150 150
      (by decide) (by decide) (by decide) (by decide)).1 (by decide),
   (C10_paste_block_effect (fun _ _ => (1, 2, 3)) (fun _ _ => (4, 5, 6)) 5 0 0
      (by decide) (by decide) (by decide) (by decide)).2 (by decide)⟩

/-! ## Helper lemmas for the 4x4 geometry -/

theorem bandIdx_lt_four (x : Nat) : bandIdx x < 4 := by
  unfold bandIdx
  split_ifs <;> omega

theorem bandIdx_eq_zero {x : Nat} (h : 2*x < 225) : bandIdx x = 0 := by
  simp [bandIdx, h]

theorem bandIdx_eq_one {x : Nat} (h1 : 225 < 2*x) (h2 : x < 225) : bandIdx x = 1 := by
  have n0 : ¬ 2*x < 225 := by omega
  simp [bandIdx, n0, h2]

theorem bandIdx_eq_two {x : Nat} (h1 : 225 < x) (h2 : 2*x < 675) : bandIdx x = 2 := by
  have n0 : ¬ 2*x < 225 := by omega
  have n1 : ¬ x < 225 := by omega
  simp [bandIdx, n0, n1, h2]

theorem bandIdx_eq_three {x : Nat} (h : 675 < 2*x) : bandIdx x = 3 := by
  have n0 : ¬ 2*x < 225 := by omega
  have n1 : ¬ x < 225 := by omega
  have n2 : ¬ 2*x < 675 := by omega
  simp [bandIdx, n0, n1, n2]

theorem sampleCells_col0 {x : Nat} (y : Nat) (hxb : 2*x < 225) :
    sampleCells x y = colCells 0 y := by
  have n1 : ¬ 225 < 2*x := by omega
  have n2 : ¬ 225 < x := by omega
  have n3 : ¬ 675 < 2*x := by omega
  simp [sampleCells, colCells, hxb, n1, n2, n3]

theorem sampleCells_col1 {x : Nat} (y : Nat) (hxb : 225 < 2*x ∧ x < 225) :
    sampleCells x y = colCells 1 y := by
  have n0 : ¬ 2*x < 225 := by omega
  have n2 : ¬ 225 < x := by omega
  have n3 : ¬ 675 < 2*x := by omega
  simp [sampleCells, colCells, hxb.1, hxb.2, n0, n2, n3]

theorem sampleCells_col2 {x : Nat} (y : Nat) (hxb : 225 < x ∧ 2*x < 675) :
    sampleCells x y = colCells 2 y := by
  have n0 : ¬ 2*x < 225 := by omega
  have n1 : ¬ x < 225 := by omega
  have n3 : ¬ 675 < 2*x := by omega
  simp [sampleCells, colCells, hxb.1, hxb.2, n0, n1, n3]

theorem sampleCells_col3 {x : Nat} (y : Nat) (hxb : 675 < 2*x) (hx : x ≤ 450) :
    sampleCells x y = colCells 3 y := by
  have n0 : ¬ 2*x < 225 := by omega
  have n1 : ¬ x < 225 := by omega
  have n2 : ¬ 2*x < 675 := by omega
  simp [sampleCells, colCells, hxb, hx, n0, n1, n2]

theorem colCells_row0 {y : Nat} (c : Nat) (hyb : 2*y < 225) :
    colCells c y = [c + 1] := by
  have n1 : ¬ 225 < 2*y := by omega
  have n2 : ¬ 225 < y := by omega
  have n3 : ¬ 675 < 2*y := by omega
  simp [colCells, hyb, n1, n2, n3]

theorem colCells_row1 {y : Nat} (c : Nat) (hyb : 225 < 2*y ∧ y < 225) :
    colCells c y = [c + 5] := by
  have n0 : ¬ 2*y < 225 := by omega
  have n2 : ¬ 225 < y := by omega
  have n3 : ¬ 675 < 2*y := by omega
  simp [colCells, hyb.1, hyb.2, n0, n2, n3]

theorem colCells_row2 {y : Nat} (c : Nat) (hyb : 225 < y ∧ 2*y < 675) :
    colCells c y = [c + 9] := by
  have n0 : ¬ 2*y < 225 := by omega
  have n1 : ¬ y < 225 := by omega
  have n3 : ¬ 675 < 2*y := by omega
  simp [colCells, hyb.1, hyb.2, n0, n1, n3]

theorem colCells_row3 {y : Nat} (c : Nat) (hyb : 675 < 2*y) (hy : y ≤ 450) :
    colCells c y = [c + 13] := by
  have n0 : ¬ 2*y < 225 := by omega
  have n1 : ¬ y < 225 := by omega
  have n2 : ¬ 2*y < 675 := by omega
  simp [colCells, hyb, hy, n0, n1, n2]

/-- Away from the integer boundary 225, a corner sample point lands in
exactly the one cell given by its row and column bands. -/
theorem sampleCells_eq {x y : Nat} (hx : x ≤ 450) (hy : y ≤ 450)
    (hx' : x ≠ 225) (hy' : y ≠ 225) :
    sampleCells x y = [4 * bandIdx y + bandIdx x + 1] := by
  have hx4 : 2*x < 225 ∨ (225 < 2*x ∧ x < 225) ∨ (225 < x ∧ 2*x < 675) ∨ 675 < 2*x := by
    omega
  have hy4 : 2*y < 225 ∨ (225 < 2*y ∧ y < 225) ∨ (225 < y ∧ 2*y < 675) ∨ 675 < 2*y := by
    omega
  have hcol : ∃ c, bandIdx x = c ∧ sampleCells x y = colCells c y := by
    rcases hx4 with h | h | h | h
    · exact ⟨0, bandIdx_eq_zero h, sampleCells_col0 y h⟩
    · exact ⟨1, bandIdx_eq_one h.1 h.2, sampleCells_col1 y h⟩
    · exact ⟨2, bandIdx_eq_two h.1 h.2, sampleCells_col2 y h⟩
    · exact ⟨3, bandIdx_eq_three h, sampleCells_col3 y h hx⟩
  obtain ⟨c, hc, hs⟩ := hcol
  rw [hs, hc]
  rcases hy4 with h | h | h | h
  · rw [colCells_row0 c h, bandIdx_eq_zero h]
    exact congrArg (fun n => [n]) (by omega)
  · rw [colCells_row1 c h, bandIdx_eq_one h.1 h.2]
    exact congrArg (fun n => [n]) (by omega)
  · rw [colCells_row2 c h, bandIdx_eq_two h.1 h.2]
    exact congrArg (fun n => [n]) (by omega)
  · rw [colCells_row3 c h hy, bandIdx_eq_three h]
    exact congrArg (fun n => [n]) (by omega)

/-- The four corner samples of a box away from the 225 boundary. -/
theorem fourCells_eq {t x1 y1 x2 y2 : Nat}
    (hx1 : x1 ≤ 450) (hy1 : y1 ≤ 450) (hx2 : x2 ≤ 450) (hy2 : y2 ≤ 450)
    (nx1 : x1 ≠ 225) (ny1 : y1 ≠ 225) (nx2 : x2 ≠ 225) (ny2 : y2 ≠ 225) :
    fourCells ⟨t, x1, y1, x2, y2⟩ =
      [4 * bandIdx y1 + bandIdx x1 + 1, 4 * bandIdx y1 + bandIdx x2 + 1,
       4 * bandIdx y2 + bandIdx x1 + 1, 4 * bandIdx y2 + bandIdx x2 + 1] := by
  simp [fourCells, sampleCells_eq hx1 hy1 nx1 ny1, sampleCells_eq hx2 hy1 nx2 ny1,
    sampleCells_eq hx1 hy2 nx1 ny2, sampleCells_eq hx2 hy2 nx2 ny2]

theorem foldl_min_le_init {l : List Nat} {b : Nat} : l.foldl min b ≤ b := by
  induction l generalizing b with
  | nil => simp
  | cons x xs ih =>
      simp only [List.foldl]
      exact le_trans ih (min_le_left b x)

theorem init_le_foldl_max {l : List Nat} {b : Nat} : b ≤ l.foldl max b := by
  induction l generalizing b with
  | nil => simp
  | cons x xs ih =>
      simp only [List.foldl]
      exact le_trans (le_max_left b x) ih

theorem foldl_max_le {l : List Nat} {b m : Nat} (hb : b ≤ m) (h : ∀ x ∈ l, x ≤ m) :
    l.foldl max b ≤ m := by
  induction l generalizing b with
  | nil => simpa using hb
  | cons x xs ih =>
      simp only [List.foldl]
      exact ih (max_le hb (h x (by simp))) (fun z hz => h z (by simp [hz]))

/-- Membership in the rectangle fill of a nonempty vertex list: exactly
the cells `4*i + j + 1` with `i` between the least and greatest sampled
row and `j` between the least and greatest sampled column. -/
theorem mem_get_occupied_cells {v : Nat} {vs : List Nat} {a : Nat} :
    a ∈ get_occupied_cells (v :: vs) ↔
      ∃ i j,
        ((v :: vs).map (fun u => (u - 1) / 4)).foldl min ((v - 1) / 4) ≤ i ∧
        i ≤ ((v :: vs).map (fun u => (u - 1) / 4)).foldl max ((v - 1) / 4) ∧
        ((v :: vs).map (fun u => (u - 1) % 4)).foldl min ((v - 1) % 4) ≤ j ∧
        j ≤ ((v :: vs).map (fun u => (u - 1) % 4)).foldl max ((v - 1) % 4) ∧
        a = 4 * i + j + 1 := by
  have hr : ((v :: vs).map (fun u => (u - 1) / 4)).foldl min ((v - 1) / 4) ≤
      ((v :: vs).map (fun u => (u - 1) / 4)).foldl max ((v - 1) / 4) :=
    le_trans foldl_min_le_init init_le_foldl_max
  have hc : ((v :: vs).map (fun u => (u - 1) % 4)).foldl min ((v - 1) % 4) ≤
      ((v :: vs).map (fun u => (u - 1) % 4)).foldl max ((v - 1) % 4) :=
    le_trans foldl_min_le_init init_le_foldl_max
  simp only [get_occupied_cells, List.mem_flatMap, List.mem_map, List.mem_range'_1]
  constructor
  · rintro ⟨i, ⟨hi1, hi2⟩, j, ⟨hj1, hj2⟩, rfl⟩
    exact ⟨i, j, hi1, by omega, hj1, by omega, rfl⟩
  · rintro ⟨i, j, hi1, hi2, hj1, hj2, rfl⟩
    exact ⟨i, ⟨hi1, by omega⟩, j, ⟨hj1, by omega⟩, rfl⟩

theorem mem_sampleCells_bounds {x y u : Nat} (h : u ∈ sampleCells x y) :
    1 ≤ u ∧ u ≤ 16 := by
  simp only [sampleCells, List.mem_append, List.mem_ite_nil_right,
    List.mem_singleton] at h
  omega

theorem mem_fourCells_bounds {d : Detection} {u : Nat} (h : u ∈ fourCells d) :
    1 ≤ u ∧ u ≤ 16 := by
  unfold fourCells at h
  rcases List.mem_append.mp h with h' | h'
  · rcases List.mem_append.mp h' with h'' | h''
    · rcases List.mem_append.mp h'' with h3 | h3
      · exact mem_sampleCells_bounds h3
      · exact mem_sampleCells_bounds h3
    · exact mem_sampleCells_bounds h''
  · exact mem_sampleCells_bounds h'

theorem get_occupied_cells_bounds {v : Nat} {vs : List Nat} {a : Nat}
    (hall : ∀ u ∈ v :: vs, 1 ≤ u ∧ u ≤ 16)
    (ha : a ∈ get_occupied_cells (v :: vs)) : 1 ≤ a ∧ a ≤ 16 := by
  rw [mem_get_occupied_cells] at ha
  obtain ⟨i, j, h1, h2, h3, h4, rfl⟩ := ha
  have hrmax : ((v :: vs).map (fun u => (u - 1) / 4)).foldl max ((v - 1) / 4) ≤ 3 := by
    refine foldl_max_le ?_ ?_
    · have := hall v (by simp)
      omega
    · rintro z hz
      simp only [List.mem_map] at hz
      obtain ⟨u, hu, rfl⟩ := hz
      have := hall u hu
      omega
  have hcmax : ((v :: vs).map (fun u => (u - 1) % 4)).foldl max ((v - 1) % 4) ≤ 3 := by
    refine foldl_max_le ?_ ?_
    · omega
    · rintro z hz
      simp only [List.mem_map] at hz
      obtain ⟨u, hu, rfl⟩ := hz
      omega
  omega

/-! ## C2 -/

/-- C2, counterexample: the detection spanning (100,100)-(250,250) does
NOT contribute the cell set {1,2,5,6}: the corner coordinate 250 lies
above the 225 boundary, in the third band, so the code yields the 3x3
block of cells {1,2,3,5,6,7,9,10,11}; cell 3 is contributed though the
claim's set excludes it. -/
theorem C2_crossing_box_not_small_square :
    square_solver (.ok [⟨2, 100, 100, 250, 250⟩]) 2 = [1, 2, 3, 5, 6, 7, 9, 10, 11] ∧
    3 ∈ square_solver (.ok [⟨2, 100, 100, 250, 250⟩]) 2 ∧
    3 ∉ ([1, 2, 5, 6] : List Nat) := by
  refine ⟨by decide, by decide, by decide⟩

/-- C2 (amended): for every detection whose corner coordinates lie inside
the 450x450 image and avoid the integer boundary value 225 (where a
corner samples no cell), the contribution is exactly the inclusive
bounding rectangle, in row/column grid-index space, of the four corner
sample points' cells; box (0,0)-(112,112) gives {1}, and box
(100,100)-(250,250) gives {1,2,3,5,6,7,9,10,11} (not {1,2,5,6}). -/
theorem C2_rectangle_fill_of_corner_cells :
    (∀ (t x1 y1 x2 y2 : Nat), x1 ≤ 450 → y1 ≤ 450 → x2 ≤ 450 → y2 ≤ 450 →
      x1 ≠ 225 → y1 ≠ 225 → x2 ≠ 225 → y2 ≠ 225 →
      ∀ a : Nat, a ∈ get_occupied_cells (fourCells ⟨t, x1, y1, x2, y2⟩) ↔
        ∃ i j, min (bandIdx y1) (bandIdx y2) ≤ i ∧ i ≤ max (bandIdx y1) (bandIdx y2) ∧
          min (bandIdx x1) (bandIdx x2) ≤ j ∧ j ≤ max (bandIdx x1) (bandIdx x2) ∧
          a = 4 * i + j + 1) ∧
    square_solver (.ok [⟨2, 0, 0, 112, 112⟩]) 2 = [1] ∧
    square_solver (.ok [⟨2, 100, 100, 250, 250⟩]) 2 = [1, 2, 3, 5, 6, 7, 9, 10, 11] := by
  refine ⟨?_, by decide, by decide⟩
  intro t x1 y1 x2 y2 hx1 hy1 hx2 hy2 nx1 ny1 nx2 ny2 a
  rw [fourCells_eq hx1 hy1 hx2 hy2 nx1 ny1 nx2 ny2, mem_get_occupied_cells]
  have bx1 := bandIdx_lt_four x1
  have bx2 := bandIdx_lt_four x2
  have by1 := bandIdx_lt_four y1
  have by2 := bandIdx_lt_four y2
  have e1 : (4 * bandIdx y1 + bandIdx x1 + 1 - 1) / 4 = bandIdx y1 := by omega
  have e2 : (4 * bandIdx y1 + bandIdx x2 + 1 - 1) / 4 = bandIdx y1 := by omega
  have e3 : (4 * bandIdx y2 + bandIdx x1 + 1 - 1) / 4 = bandIdx y2 := by omega
  have e4 : (4 * bandIdx y2 + bandIdx x2 + 1 - 1) / 4 = bandIdx y2 := by omega
  have m1 : (4 * bandIdx y1 + bandIdx x1 + 1 - 1) % 4 = bandIdx x1 := by omega
  have m2 : (4 * bandIdx y1 + bandIdx x2 + 1 - 1) % 4 = bandIdx x2 := by omega
  have m3 : (4 * bandIdx y2 + bandIdx x1 + 1 - 1) % 4 = bandIdx x1 := by omega
  have m4 : (4 * bandIdx y2 + bandIdx x2 + 1 - 1) % 4 = bandIdx x2 := by omega
  simp only [List.map, e1, e2, e3, e4, m1, m2, m3, m4, List.foldl]
  constructor
  · rintro ⟨i, j, h1, h2, h3, h4, rfl⟩
    exact ⟨i, j, by omega, by omega, by omega, by omega, rfl⟩
  · rintro ⟨i, j, h1, h2, h3, h4, rfl⟩
    exact ⟨i, j, by omega, by omega, by omega, by omega, rfl⟩

/-- C2 witness: the rectangle-fill characterisation applied to the box
(0,0)-(112,112) puts cell 1 in its contribution. -/
theorem C2_rectangle_fill_of_corner_cells_witness :
    1 ∈ get_occupied_cells (fourCells ⟨2, 0, 0, 112, 112⟩) :=
  (C2_rectangle_fill_of_corner_cells.1 2 0 0 112 112 (by decide) (by decide) (by decide)
      (by decide) (by decide) (by decide) (by decide) (by decide) 1).mpr
    ⟨0, 0, by decide, by decide, by decide, by decide, by decide⟩

/-! ## C4 -/

/-- C4, counterexample: the degenerate zero-height box (0,300)-(300,300)
lies inside the 300x300 image (0 ≤ x1 ≤ x2 ≤ 300, 0 ≤ y1 ≤ y2 ≤ 300), yet
its center row floor(300/100) = 3 makes the 3x3 mapper emit cell 11,
outside [1,9]. -/
theorem C4_degenerate_edge_box_escapes :
    dynamic_and_selection_solver (.ok [⟨1, 0, 300, 300, 300⟩]) 1 = [11] ∧
    ((0 : Nat) ≤ 300 ∧ (300 : Nat) ≤ 300) ∧
    11 ∈ dynamic_and_selection_solver (.ok [⟨1, 0, 300, 300, 300⟩]) 1 ∧
    ¬ ((11 : Nat) ≤ 9) := by
  refine ⟨by decide, ⟨by decide, by decide⟩, by decide, by decide⟩

/-- C4 (amended): for detections with nondegenerate boxes inside the
image (x1 < x2 ≤ 300, y1 < y2 ≤ 300) every 3x3 answer lies in [1,9]; every
4x4 answer lies in [1,16] for arbitrary boxes; and both mappers always
return duplicate-free lists. -/
theorem C4_answer_sets_in_range :
    (∀ (dets : List Detection) (t : Nat),
      (∀ d ∈ dets, d.x1 < d.x2 ∧ d.x2 ≤ 300 ∧ d.y1 < d.y2 ∧ d.y2 ≤ 300) →
      ∀ a ∈ dynamic_and_selection_solver (.ok dets) t, 1 ≤ a ∧ a ≤ 9) ∧
    (∀ (inp : DetectInput) (t : Nat), (dynamic_and_selection_solver inp t).Nodup) ∧
    (∀ (dets : List Detection) (t : Nat),
      ∀ a ∈ square_solver (.ok dets) t, 1 ≤ a ∧ a ≤ 16) ∧
    (∀ (inp : DetectInput) (t : Nat), (square_solver inp t).Nodup) := by
  refine ⟨?_, ?_, ?_, ?_⟩
  · intro dets t hbox a ha
    simp only [dynamic_and_selection_solver, List.mem_dedup, List.mem_map,
      List.mem_filter] at ha
    obtain ⟨d, ⟨hd, _⟩, rfl⟩ := ha
    have hb := hbox d hd
    simp only [cellOf3x3]
    omega
  · intro inp t
    cases inp with
    | missingImage => simp [dynamic_and_selection_solver]
    | raised => simp [dynamic_and_selection_solver]
    | ok dets => exact List.nodup_dedup _
  · intro dets t a ha
    simp only [square_solver] at ha
    split at ha
    · cases ha
    · rename_i hany
      rw [List.mem_insertionSort, List.mem_dedup, List.mem_flatMap] at ha
      obtain ⟨d, hd, hmem⟩ := ha
      have hne : fourCells d ≠ [] := by
        intro hnil
        exact absurd (List.any_eq_true.mpr ⟨d, hd, by simp [hnil]⟩) hany
      obtain ⟨v, vs, hcons⟩ := List.exists_cons_of_ne_nil hne
      rw [hcons] at hmem
      refine get_occupied_cells_bounds ?_ hmem
      intro u hu
      exact mem_fourCells_bounds (hcons ▸ hu)
  · intro inp t
    cases inp with
    | missingImage => simp [square_solver]
    | raised => simp [square_solver]
    | ok dets =>
        simp only [square_solver]
        split
        · simp
        · exact ((List.perm_insertionSort _ _).nodup_iff).mpr (List.nodup_dedup _)

/-- C4 witness: a nondegenerate box inside the image yields answer 1,
which the amended range theorem places within [1,9]. -/
theorem C4_answer_sets_in_range_witness :
    (dynamic_and_selection_solver (.ok [⟨1, 0, 0, 100, 100⟩]) 1).Nodup ∧
    (1 ≤ 1 ∧ (1 : Nat) ≤ 9) :=
  ⟨C4_answer_sets_in_range.2.1 (.ok [⟨1, 0, 0, 100, 100⟩]) 1,
   C4_answer_sets_in_range.1 [⟨1, 0, 0, 100, 100⟩] 1 (by decide) 1 (by decide)⟩

/-! ## C9 -/

/-- C9: every loop of the solve engine is bounded and the engine always
ends with a definite boolean — the outer loop executes at most
`max_attempts` attempts, the reload loop at most `max_reload` iterations,
the dynamic loop at most `max_dynamic_rounds` rounds of at most
`poll_budget` (20) polls each; reload exhaustion aborts only the current
attempt and proceeds to the next; spent outer budget returns failure; and
with a detector that returns empty detections on every reload cycle the
whole solve terminates with failure. -/
theorem C9_bounded_loops_terminate :
    (∀ (env : SolveEnv) (a fuel : Nat), (outerLoopAux env a fuel).2 ≤ a + fuel) ∧
    (∀ (env : SolveEnv) (n : Nat), (solveLoop env n).2 ≤ n) ∧
    (∀ (env : Nat → ReloadOutcome) (i fuel : Nat),
        (reloadLoopAux env i fuel).2 ≤ i + fuel) ∧
    (∀ env : Nat → ReloadOutcome, (reloadLoopAux env 0 max_reload).2 ≤ max_reload) ∧
    (∀ (denv : DynEnv) (t : Nat) (ans : List Nat) (urls : List String) (r fuel : Nat),
        dynamicLoopAux denv t ans urls r fuel ≤ r + fuel) ∧
    (∀ (denv : DynEnv) (t : Nat) (ans : List Nat) (urls : List String),
        dynamicLoopAux denv t ans urls 0 max_dynamic_rounds ≤ max_dynamic_rounds) ∧
    (∀ (u : Nat → List String) (b : List String) (ans : List Nat) (t fuel : Nat),
        (pollLoopAux u b ans t fuel).2.2 ≤ t + fuel) ∧
    (∀ (u : Nat → List String) (b : List String) (ans : List Nat),
        (pollLoopAux u b ans 0 poll_budget).2.2 ≤ poll_budget) ∧
    (∀ (env : SolveEnv) (a fuel : Nat),
        (reloadLoopAux (env.reload a) 0 max_reload).1 = .exhausted →
        outerLoopAux env a (fuel + 1) = outerLoopAux env (a + 1) fuel) ∧
    (∀ (env : SolveEnv) (a : Nat), outerLoopAux env a 0 = (false, a)) ∧
    solveLoop emptyDetectorEnv max_attempts_default = (false, max_attempts_default) := by
  have hreload : ∀ (env : Nat → ReloadOutcome) (fuel i : Nat),
      (reloadLoopAux env i fuel).2 ≤ i + fuel := by
    intro env fuel
    induction fuel with
    | zero => intro i; simp [reloadLoopAux]
    | succ fuel ih =>
        intro i
        simp only [reloadLoopAux]
        cases henv : env i with
        | solvedEarly => dsimp only; omega
        | uiFailure =>
            dsimp only
            have := ih (i + 1)
            omega
        | raised => dsimp only; omega
        | classified v ans =>
            dsimp only
            cases hd : classifyDecision v ans with
            | accept => dsimp only; omega
            | reload =>
                dsimp only
                have := ih (i + 1)
                omega
  have houter : ∀ (env : SolveEnv) (fuel a : Nat),
      (outerLoopAux env a fuel).2 ≤ a + fuel := by
    intro env fuel
    induction fuel with
    | zero => intro a; simp [outerLoopAux]
    | succ fuel ih =>
        intro a
        simp only [outerLoopAux]
        cases hr : (reloadLoopAux (env.reload a) 0 max_reload).1 with
        | success => dsimp only; omega
        | raisedOut =>
            dsimp only
            have := ih (a + 1)
            omega
        | exhausted =>
            dsimp only
            have := ih (a + 1)
            omega
        | accepted v ans =>
            dsimp only
            split_ifs with hcnt
            · have := ih (a + 1)
              omega
            · cases hcheck : check_solved_yolo (env.verify a) with
              | some b => dsimp only; omega
              | none =>
                  dsimp only
                  have := ih (a + 1)
                  omega
  have hpoll : ∀ (u : Nat → List String) (b : List String) (ans : List Nat)
      (fuel t : Nat), (pollLoopAux u b ans t fuel).2.2 ≤ t + fuel := by
    intro u b ans fuel
    induction fuel with
    | zero => intro t; simp [pollLoopAux]
    | succ fuel ih =>
        intro t
        simp only [pollLoopAux]
        split_ifs with h
        · dsimp only; omega
        · have := ih (t + 1)
          omega
  have hdyn : ∀ (denv : DynEnv) (t : Nat) (fuel : Nat) (ans : List Nat)
      (urls : List String) (r : Nat), dynamicLoopAux denv t ans urls r fuel ≤ r + fuel := by
    intro denv t fuel
    induction fuel with
    | zero => intro ans urls r; simp [dynamicLoopAux]
    | succ fuel ih =>
        intro ans urls r
        simp only [dynamicLoopAux]
        split_ifs with h1 h2
        · omega
        · have := ih (dynamic_and_selection_solver (denv.solveAt r) t)
            (pollLoopAux (denv.urlsAt r) urls ans 0 poll_budget).2.1 (r + 1)
          omega
        · omega
  refine ⟨fun env a fuel => houter env fuel a,
    fun env n => by simpa [solveLoop] using houter env n 0,
    fun env i fuel => hreload env fuel i,
    fun env => hreload env max_reload 0,
    fun denv t ans urls r fuel => hdyn denv t fuel ans urls r,
    fun denv t ans urls => hdyn denv t max_dynamic_rounds ans urls 0,
    fun u b ans t fuel => hpoll u b ans fuel t,
    fun u b ans => hpoll u b ans poll_budget 0,
    ?_, fun env a => rfl, by decide⟩
  intro env a fuel h
  simp only [outerLoopAux, h]

/-- C9 witness: with the empty-detector environment the first attempt
exhausts its reload budget and the loop moves on to the second attempt. -/
theorem C9_bounded_loops_terminate_witness :
    outerLoopAux emptyDetectorEnv 0 1 = outerLoopAux emptyDetectorEnv 1 0 :=
  C9_bounded_loops_terminate.2.2.2.2.2.2.2.2.1 emptyDetectorEnv 0 0 (by decide)

end Host2Play
